import Mathlib

/-!
Shallow embedding of the AD9959 DDS driver (`src/lib.rs`) and verification of
its specification.

Modelling conventions:
* Machine integers (`u8`, `u16`, `u32`) are `ℕ` with explicit `% 2^w` or
  saturation where the source casts; register bytes read from the device are
  reduced `% 256` because the transport delivers `u8` values.
* `f32` quantities (frequencies in Hz, phase degrees, normalized amplitude)
  are modelled as exact rationals `ℚ`.  Every `expr as uN` cast on an `f32`
  is Rust's saturating truncation toward zero (`ratCast` below).  The one
  f32-specific constant that matters is `u32::max_value() as f32`: the value
  4294967295 is not representable in `f32` (24-bit significand) and rounds to
  4294967296 = 2^32, so the frequency scale factor and decode divisor are both
  modelled as 4294967296.
* The transport (`Interface`), the pins and the delay are external
  collaborators.  They are modelled by an oracle device `Dev`: a queue of
  byte-list responses for successive `read` calls, plus a chronological log of
  every transport/pin/delay action the driver performs.  All transport and pin
  operations succeed in this model (the claims under study are about the
  successful paths and about which actions the driver performs).
* Fallible driver operations return their `Result` together with the driver
  state and the device, mirroring `&mut self`: early error returns still keep
  the state and the action log accumulated so far.
-/

namespace AD9959

/-- The bit-range write of the `bit_field` crate: `b.set_bits(lo..lo+len, v)`
replaces bits `[lo, lo+len)` of `b` by `v` (the crate asserts `v < 2^len`;
every call in the driver satisfies this, the `% 2^len` below is then exact). -/
def setBits (b lo len v : ℕ) : ℕ :=
  b % 2 ^ lo + v % 2 ^ len * 2 ^ lo + b / 2 ^ (lo + len) * 2 ^ (lo + len)

/-- `b.set_bit(i, x)` of the `bit_field` crate. -/
def setBit (b i : ℕ) (x : Bool) : ℕ :=
  setBits b i 1 (if x then 1 else 0)

/-- `b.get_bits(lo..lo+len)` of the `bit_field` crate. -/
def getBits (b lo len : ℕ) : ℕ :=
  b / 2 ^ lo % 2 ^ len

/-- One observable action of the driver on its collaborators: a transport
read (with the response the device supplied), a transport write, the mode
configuration, an edge on the IO_UPDATE pin, an edge on the reset pin, or a
millisecond delay. -/
inductive Act where
  | readAct : ℕ → List ℕ → Act
  | writeAct : ℕ → List ℕ → Act
  | confMode : Act
  | pinHigh : Act
  | pinLow : Act
  | resetHigh : Act
  | resetLow : Act
  | delayAct : ℕ → Act
deriving DecidableEq

/-- The oracle device: queued responses for successive transport reads, and
the chronological log of actions performed so far. -/
structure Dev where
  reads : List (List ℕ)
  log : List Act
deriving DecidableEq

/-- Pad or truncate a response to the read buffer's length. -/
def padTo (len : ℕ) (l : List ℕ) : List ℕ :=
  (l ++ List.replicate len 0).take len

/-- `Interface::read`: pop the next queued response (its entries reduced to
bytes), fit it to the buffer length, log the read. -/
def devRead (d : Dev) (addr len : ℕ) : List ℕ × Dev :=
  let resp := padTo len ((d.reads.headD []).map (fun b => b % 256))
  (resp, ⟨d.reads.tail, d.log ++ [Act.readAct addr resp]⟩)

/-- `Interface::write`: log the write. -/
def devWrite (d : Dev) (addr : ℕ) (data : List ℕ) : Dev :=
  ⟨d.reads, d.log ++ [Act.writeAct addr data]⟩

/-- Log a pin, delay or mode-configuration action. -/
def emit (d : Dev) (a : Act) : Dev :=
  ⟨d.reads, d.log ++ [a]⟩

/-- The first byte the next transport read will deliver. -/
def firstByte (d : Dev) : ℕ :=
  (d.reads.headD []).headD 0 % 256

/-- The driver state `Ad9959`: its two scalars (the capabilities live in
`Dev`). -/
structure Ad9959 where
  reference_clock_frequency : ℕ
  system_clock_multiplier : ℕ
deriving DecidableEq

/-- The register map of the source's `Register` enum. -/
inductive Register where
  | CSR | FR1 | FR2 | CFR | CFTW0 | CPOW0 | ACR | LSRR | RDW | FDW
  | CW1 | CW2 | CW3 | CW4 | CW5 | CW6 | CW7 | CW8 | CW9 | CW10
  | CW11 | CW12 | CW13 | CW14 | CW15
deriving DecidableEq

/-- Register addresses (the enum discriminants of the source). -/
def Register.addr : Register → ℕ
  | .CSR => 0x00
  | .FR1 => 0x01
  | .FR2 => 0x02
  | .CFR => 0x03
  | .CFTW0 => 0x04
  | .CPOW0 => 0x05
  | .ACR => 0x06
  | .LSRR => 0x07
  | .RDW => 0x08
  | .FDW => 0x09
  | .CW1 => 0x0a
  | .CW2 => 0x0b
  | .CW3 => 0x0c
  | .CW4 => 0x0d
  | .CW5 => 0x0e
  | .CW6 => 0x0f
  | .CW7 => 0x10
  | .CW8 => 0x11
  | .CW9 => 0x12
  | .CW10 => 0x13
  | .CW11 => 0x14
  | .CW12 => 0x15
  | .CW13 => 0x16
  | .CW14 => 0x17
  | .CW15 => 0x18

/-- The `Channel` enum. -/
inductive Channel where
  | one | two | three | four
deriving DecidableEq

/-- The enum discriminant of a channel. -/
def Channel.num : Channel → ℕ
  | .one => 0
  | .two => 1
  | .three => 2
  | .four => 3

/-- The driver's `Error` kinds (the `Interface` payload is dropped: the
modelled transport always succeeds). -/
inductive Error where
  | interface | bounds | pin | frequency | identification
deriving DecidableEq

/-- Computable floor of a rational (`⌊q⌋`, see `rfloor_eq`). -/
def rfloor (q : ℚ) : ℤ :=
  q.num.fdiv q.den

/-- Rust's `f32 as uN` cast: truncate toward zero, saturate at `0` and at the
type's maximum `cap`. -/
def ratCast (q : ℚ) (cap : ℕ) : ℕ :=
  if q < 0 then 0 else min (rfloor q).toNat cap

/-- `system_clock_frequency`: multiplier times reference clock. -/
def system_clock_frequency (s : Ad9959) : ℚ :=
  (s.system_clock_multiplier : ℚ) * (s.reference_clock_frequency : ℚ)

/-- `latch_configuration`: raise IO_UPDATE, delay `(5000.0 /
system_clock_frequency) as u8` milliseconds, lower IO_UPDATE. -/
def latch_configuration (s : Ad9959) (d : Dev) : Dev :=
  let d := emit d Act.pinHigh
  let d := emit d (Act.delayAct (ratCast (5000 / system_clock_frequency s) 255))
  emit d Act.pinLow

/-- `set_clock_frequency`: records the reference clock frequency (the body is
otherwise TODO comments in the source: no transport access, no multiplier
change). -/
def set_clock_frequency (s : Ad9959) (d : Dev) (clock_frequency : ℕ) :
    Except Error Unit × Ad9959 × Dev :=
  (Except.ok (), ⟨clock_frequency, s.system_clock_multiplier⟩, d)

/-- `new`: reset, enter four-bit serial mode with the crafted padded CSR
write, latch, verify the CSR readback equals `0xf6`, then
`set_clock_frequency`. -/
def new (d : Dev) (clock_frequency : ℕ) : Except Error Ad9959 × Dev :=
  let s : Ad9959 := ⟨clock_frequency, 1⟩
  let d := emit d Act.pinLow
  let d := emit d Act.resetHigh
  let d := emit d (Act.delayAct (ratCast (1000 / (clock_frequency : ℚ)) 255))
  let d := emit d Act.resetLow
  let d := emit d Act.confMode
  let d := devWrite d 0 [0x00, 0x00, 0x00, 0x11, 0x11, 0x01, 0x10]
  let d := latch_configuration s d
  let (csr, d) := devRead d Register.CSR.addr 1
  if csr.headD 0 ≠ 0xf6 then
    (Except.error Error.identification, d)
  else
    let (_, s, d) := set_clock_frequency s d clock_frequency
    (Except.ok s, d)

/-- `configure_system_clock`: reject targets above 500 MHz and ratios that
truncate to zero; prescaler 1 for ratios 1–3, otherwise the ratio as `u8`
capped at 20; read-modify-write FR1 byte 0 (prescaler in bits 2–6, VCO-range
flag in bit 7 iff the target exceeds 255 MHz); store the multiplier and
return the achieved system clock. -/
def configure_system_clock (s : Ad9959) (d : Dev) (frequency : ℚ) :
    Except Error ℚ × Ad9959 × Dev :=
  if frequency > 500000000 then (Except.error Error.frequency, s, d)
  else
    let ratio := ratCast (frequency / (s.reference_clock_frequency : ℚ)) 4294967295
    if ratio = 0 then (Except.error Error.frequency, s, d)
    else
      let prescaler : ℕ :=
        if ratio ≤ 3 then 1
        else
          let p := ratCast (frequency / (s.reference_clock_frequency : ℚ)) 255
          if p > 20 then 20 else p
      let (fr1, d) := devRead d Register.FR1.addr 3
      let b0 := setBit (setBits (fr1.headD 0) 2 5 prescaler) 7
        (decide (frequency > 255000000))
      let d := devWrite d Register.FR1.addr (b0 :: fr1.tail)
      let s : Ad9959 := ⟨s.reference_clock_frequency, prescaler⟩
      (Except.ok (system_clock_frequency s), s, d)

/-- `self_test`: read CSR, set all four enable bits and check the readback,
clear them and check the readback, then restore the original CSR (the source
restores only on the all-checks-passed path). -/
def self_test (s : Ad9959) (d : Dev) : Except Error Bool × Ad9959 × Dev :=
  let (csr, d) := devRead d 0 1
  let old_csr := csr.headD 0
  let d := devWrite d 0 [setBits old_csr 4 4 0xF]
  let (r1, d) := devRead d 0 1
  if getBits (r1.headD 0) 4 4 ≠ 0xF then (Except.ok false, s, d)
  else
    let d := devWrite d 0 [setBits (r1.headD 0) 4 4 0x0]
    let (r2, d) := devRead d 0 1
    if getBits (r2.headD 0) 4 4 ≠ 0 then (Except.ok false, s, d)
    else
      let d := devWrite d 0 [old_csr]
      (Except.ok true, s, d)

/-- `enable_channel`: read-modify-write the channel's CSR enable bit to 1. -/
def enable_channel (s : Ad9959) (d : Dev) (channel : Channel) :
    Except Error Unit × Ad9959 × Dev :=
  let (csr, d) := devRead d 0 1
  let d := devWrite d 0 [setBit (csr.headD 0) (channel.num + 4) true]
  (Except.ok (), s, d)

/-- `disable_channel`: read-modify-write the channel's CSR enable bit to 0. -/
def disable_channel (s : Ad9959) (d : Dev) (channel : Channel) :
    Except Error Unit × Ad9959 × Dev :=
  let (csr, d) := devRead d 0 1
  let d := devWrite d 0 [setBit (csr.headD 0) (channel.num + 4) false]
  (Except.ok (), s, d)

/-- `modify_channel`: read CSR, write the one-hot channel selection, write the
payload register, latch, write the saved CSR back. -/
def modify_channel (s : Ad9959) (d : Dev) (channel : Channel)
    (register : Register) (data : List ℕ) : Except Error Unit × Ad9959 × Dev :=
  let (csr, d) := devRead d 0 1
  let saved := csr.headD 0
  let selected := setBit (setBits saved 4 4 0) (4 + channel.num) true
  let d := devWrite d 0 [selected]
  let d := devWrite d register.addr data
  let d := latch_configuration s d
  let d := devWrite d 0 csr
  (Except.ok (), s, d)

/-- Big-endian bytes of a `u16` (`to_be_bytes`). -/
def u16be (w : ℕ) : List ℕ :=
  [w / 256 % 256, w % 256]

/-- Big-endian bytes of a `u32` (`to_be_bytes`). -/
def u32be (w : ℕ) : List ℕ :=
  [w / 16777216 % 256, w / 65536 % 256, w / 256 % 256, w % 256]

/-- `set_phase`: bounds-check `[0, 360]`, encode as a fraction of `2^14`,
write CPOW0 through `modify_channel`, return the decode of the written
word. -/
def set_phase (s : Ad9959) (d : Dev) (channel : Channel) (phase_degrees : ℚ) :
    Except Error ℚ × Ad9959 × Dev :=
  if phase_degrees > 360 ∨ phase_degrees < 0 then (Except.error Error.bounds, s, d)
  else
    let phase_offset := ratCast (phase_degrees / 360 * 16384) 65535
    let (_, s, d) := modify_channel s d channel Register.CPOW0 (u16be phase_offset)
    (Except.ok ((phase_offset : ℚ) / 16384 * 360), s, d)

/-- `set_amplitude`: bounds-check `[0, 1]`, encode as a fraction of `2^10`,
set the amplitude-multiplier enable bit (bit 4 of ACR byte 1) iff the encoded
word is below `0x3ff`, write ACR through `modify_channel`, return the decode
of the written word. -/
def set_amplitude (s : Ad9959) (d : Dev) (channel : Channel) (amplitude : ℚ) :
    Except Error ℚ × Ad9959 × Dev :=
  if amplitude < 0 ∨ amplitude > 1 then (Except.error Error.bounds, s, d)
  else
    let amplitude_control := ratCast (amplitude / 1 * 1024) 65535
    let acr1 := setBit (amplitude_control / 256 % 256) 4
      (decide (amplitude_control < 0x3ff))
    let (_, s, d) := modify_channel s d channel Register.ACR
      [0, acr1, amplitude_control % 256]
    (Except.ok ((amplitude_control : ℚ) / 1024), s, d)

/-- `set_frequency`: bounds-check `[0, system_clock_frequency]`, encode the
tuning word scaled by `u32::max_value() as f32` (whose `f32` value is
4294967296), write CFTW0 through `modify_channel`, return the decode of the
written word. -/
def set_frequency (s : Ad9959) (d : Dev) (channel : Channel) (frequency : ℚ) :
    Except Error ℚ × Ad9959 × Dev :=
  if frequency < 0 ∨ frequency > system_clock_frequency s then
    (Except.error Error.bounds, s, d)
  else
    let tuning_word :=
      ratCast (frequency / system_clock_frequency s * 4294967296) 4294967295
    let (_, s, d) := modify_channel s d channel Register.CFTW0 (u32be tuning_word)
    (Except.ok ((tuning_word : ℚ) / 4294967296 * system_clock_frequency s), s, d)

theorem rfloor_eq (q : ℚ) : rfloor q = ⌊q⌋ := by
  rw [Rat.floor_def, rfloor, Int.fdiv_eq_ediv _ (by positivity)]

/-! ### Helper lemmas -/

theorem padTo_one_map (l : List ℕ) :
    padTo 1 (l.map (fun b => b % 256)) = [l.headD 0 % 256] := by
  cases l <;> simp [padTo]

theorem padTo_three_headD_lt (l : List ℕ) :
    (padTo 3 (l.map (fun b => b % 256))).headD 0 < 256 := by
  cases l <;> simp [padTo] <;> omega

theorem firstByte_lt (d : Dev) : firstByte d < 256 :=
  Nat.mod_lt _ (by norm_num)

theorem Channel.num_lt (ch : Channel) : ch.num < 4 := by
  cases ch <;> simp [Channel.num]

theorem ratCast_eq_of (q : ℚ) (cap n : ℕ) (h1 : (n : ℚ) ≤ q) (h2 : q < n + 1)
    (h3 : n ≤ cap) : ratCast q cap = n := by
  have hq : ¬ q < 0 := by push_neg; exact le_trans (by positivity) h1
  have hf : ⌊q⌋ = (n : ℤ) :=
    Int.floor_eq_iff.mpr ⟨by exact_mod_cast h1, by exact_mod_cast h2⟩
  simp [ratCast, hq, rfloor_eq, hf, h3]

theorem ratCast_of_nonneg (q : ℚ) (cap : ℕ) (h0 : ¬ q < 0) :
    ratCast q cap = min (⌊q⌋).toNat cap := by
  simp [ratCast, h0, rfloor_eq]

theorem ratCast_eq_zero_iff (q : ℚ) (cap : ℕ) (hcap : 0 < cap) :
    ratCast q cap = 0 ↔ q < 1 := by
  by_cases h0 : q < 0
  · simp [ratCast, h0]
    linarith
  · rw [ratCast_of_nonneg q cap h0]
    push_neg at h0
    constructor
    · intro h
      rcases Nat.min_eq_zero_iff.mp h with h | h
      · have : ⌊q⌋ < 1 := by omega
        exact (Int.floor_lt.mp (by exact_mod_cast this))
      · omega
    · intro h
      have : ⌊q⌋ < 1 := Int.floor_lt.mpr (by exact_mod_cast h)
      simp [Nat.min_eq_zero_iff]
      omega

set_option maxRecDepth 8192 in
theorem sel_bits : ∀ b : Fin 256, ∀ c : Fin 4,
    Nat.testBit (setBit (setBits b.val 4 4 0) (4 + c.val) true) (4 + c.val) = true ∧
    (∀ i : Fin 8, 4 ≤ i.val → i.val ≠ 4 + c.val →
      Nat.testBit (setBit (setBits b.val 4 4 0) (4 + c.val) true) i.val = false) ∧
    (∀ i : Fin 4, Nat.testBit (setBit (setBits b.val 4 4 0) (4 + c.val) true) i.val
      = Nat.testBit b.val i.val) := by
  decide

set_option maxRecDepth 8192 in
theorem fr1_bits : ∀ b : Fin 256, ∀ p : Fin 32, ∀ fl : Bool,
    Nat.testBit (setBit (setBits b.val 2 5 p.val) 7 fl) 7 = fl ∧
    getBits (setBit (setBits b.val 2 5 p.val) 7 fl) 2 5 = p.val := by
  decide

theorem modify_channel_eq (s : Ad9959) (d : Dev) (ch : Channel)
    (reg : Register) (data : List ℕ) :
    modify_channel s d ch reg data =
      (Except.ok (), s, ⟨d.reads.tail, d.log ++
        [Act.readAct 0 [firstByte d],
         Act.writeAct 0 [setBit (setBits (firstByte d) 4 4 0) (4 + ch.num) true],
         Act.writeAct reg.addr data, Act.pinHigh,
         Act.delayAct (ratCast (5000 / system_clock_frequency s) 255), Act.pinLow,
         Act.writeAct 0 [firstByte d]]⟩) := by
  simp [modify_channel, devRead, devWrite, emit, latch_configuration,
    padTo_one_map, firstByte]

theorem new_eq (d : Dev) (clock : ℕ) :
    new d clock =
      (if firstByte d = 0xf6 then Except.ok ⟨clock, 1⟩
       else Except.error Error.identification,
       ⟨d.reads.tail, d.log ++
         [Act.pinLow, Act.resetHigh, Act.delayAct (ratCast (1000 / (clock : ℚ)) 255),
          Act.resetLow, Act.confMode,
          Act.writeAct 0 [0x00, 0x00, 0x00, 0x11, 0x11, 0x01, 0x10], Act.pinHigh,
          Act.delayAct (ratCast (5000 / system_clock_frequency ⟨clock, 1⟩) 255),
          Act.pinLow, Act.readAct 0 [firstByte d]]⟩) := by
  simp only [new, emit, devWrite, devRead, latch_configuration, Register.addr,
    padTo_one_map, firstByte, set_clock_frequency, List.headD_nil, List.headD_cons,
    ne_eq, ite_not]
  split <;> simp

/-! ### Claim theorems -/

/-- C1: for every successful `modify_channel(channel, register, data)` call,
the final transport write sends the CSR byte read at the start of the call
back to register 0x00, so the enable state observed before and after the call
is bit-identical. -/
theorem modify_channel_restores_csr (s : Ad9959) (d : Dev) (ch : Channel)
    (reg : Register) (data : List ℕ) :
    ∃ mid, (modify_channel s d ch reg data).1 = Except.ok () ∧
      (modify_channel s d ch reg data).2.1 = s ∧
      (modify_channel s d ch reg data).2.2.log =
        d.log ++ (Act.readAct 0 [firstByte d] :: mid) ++
          [Act.writeAct 0 [firstByte d]] := by
  refine ⟨[Act.writeAct 0 [setBit (setBits (firstByte d) 4 4 0) (4 + ch.num) true],
    Act.writeAct reg.addr data, Act.pinHigh,
    Act.delayAct (ratCast (5000 / system_clock_frequency s) 255), Act.pinLow],
    ?_, ?_, ?_⟩ <;> rw [modify_channel_eq] <;> simp

/-- C9: during every `modify_channel` call the selection byte written to the
CSR has exactly the enable bit `4 + channel` set among bits 4–7 and preserves
bits 0–3 of the byte just read. -/
theorem modify_channel_one_hot (s : Ad9959) (d : Dev) (ch : Channel)
    (reg : Register) (data : List ℕ) :
    ∃ sel rest, (modify_channel s d ch reg data).2.2.log =
      d.log ++ (Act.readAct 0 [firstByte d] :: Act.writeAct 0 [sel] :: rest) ∧
      Nat.testBit sel (4 + ch.num) = true ∧
      (∀ i, 4 ≤ i → i < 8 → i ≠ 4 + ch.num → Nat.testBit sel i = false) ∧
      (∀ i < 4, Nat.testBit sel i = Nat.testBit (firstByte d) i) := by
  have H := sel_bits ⟨firstByte d, firstByte_lt d⟩ ⟨ch.num, Channel.num_lt ch⟩
  refine ⟨setBit (setBits (firstByte d) 4 4 0) (4 + ch.num) true,
    [Act.writeAct reg.addr data, Act.pinHigh,
     Act.delayAct (ratCast (5000 / system_clock_frequency s) 255), Act.pinLow,
     Act.writeAct 0 [firstByte d]], ?_, H.1, ?_, ?_⟩
  · rw [modify_channel_eq]
  · intro i h4 h8 hne
    exact H.2.1 ⟨i, h8⟩ h4 hne
  · intro i hi
    exact H.2.2 ⟨i, hi⟩

/-- C2: the claim says `self_test` writes the originally read CSR byte back
on every path returning a result; the code does not on the mismatch paths.
With initial CSR byte 0xA5 and a readback of 0x00 after the enable-all write,
`self_test` returns `Ok(false)` having written only 0xF5 (the enable-all
value): no restoring write of 0xA5 is performed. -/
theorem self_test_mismatch_skips_restore :
    self_test ⟨25000000, 1⟩ ⟨[[0xA5], [0x00]], []⟩ =
      (Except.ok false, ⟨25000000, 1⟩,
        ⟨[], [Act.readAct 0 [0xA5], Act.writeAct 0 [0xF5], Act.readAct 0 [0x00]]⟩) ∧
    Act.writeAct 0 [0xA5] ∉
      [Act.readAct 0 [0xA5], Act.writeAct 0 [0xF5], Act.readAct 0 [0x00]] :=
  ⟨rfl, by decide⟩

/-- C3 (counterexample): a successful initialization with reference clock
25 MHz performs no transport write to the clock-configuration register FR1
(address 0x01): the final `set_clock_frequency` step only stores the
reference frequency. -/
theorem new_programs_no_fr1_write :
    (new ⟨[[0xf6]], []⟩ 25000000).1 = Except.ok ⟨25000000, 1⟩ ∧
    ∀ a ∈ (new ⟨[[0xf6]], []⟩ 25000000).2.log, ∀ data, a ≠ Act.writeAct 1 data := by
  rw [new_eq]
  refine ⟨rfl, ?_⟩
  intro a ha data
  fin_cases ha <;> simp

/-- C3 (amended): the final step of every successful `new` stores the
reference frequency and leaves `system_clock_multiplier = 1`, so the handle's
system clock equals the reference clock; no write to FR1 (address 0x01) is
performed during initialization. -/
theorem new_sets_multiplier_one (d : Dev) (clock : ℕ) (s' : Ad9959)
    (h : (new d clock).1 = Except.ok s') :
    s'.system_clock_multiplier = 1 ∧ s'.reference_clock_frequency = clock ∧
    system_clock_frequency s' = (clock : ℚ) ∧
    ∃ acts, (new d clock).2.log = d.log ++ acts ∧
      ∀ a ∈ acts, ∀ data, a ≠ Act.writeAct 1 data := by
  rw [new_eq] at h ⊢
  split at h
  · simp only [Except.ok.injEq] at h
    subst h
    refine ⟨rfl, rfl, by simp [system_clock_frequency], ?_⟩
    exact ⟨_, rfl, by intro a ha data; fin_cases ha <;> simp⟩
  · simp at h

theorem new_sets_multiplier_one_witness :
    (Ad9959.mk 25000000 1).system_clock_multiplier = 1 ∧
    (Ad9959.mk 25000000 1).reference_clock_frequency = 25000000 ∧
    system_clock_frequency (Ad9959.mk 25000000 1) = ((25000000 : ℕ) : ℚ) ∧
    ∃ acts, (new (Dev.mk [[0xf6]] []) 25000000).2.log =
        (Dev.mk [[0xf6]] []).log ++ acts ∧
      ∀ a ∈ acts, ∀ data, a ≠ Act.writeAct 1 data :=
  new_sets_multiplier_one (Dev.mk [[0xf6]] []) 25000000 (Ad9959.mk 25000000 1)
    (by rw [new_eq]; rfl)

/-- C10: when every pin and transport operation succeeds but the CSR readback
byte differs from 0xF6, `new` returns an Identification error (and hence no
handle); no other operation of the driver ever returns an Identification
error. -/
theorem identification_only_from_new :
    (∀ (d : Dev) (clock : ℕ), firstByte d ≠ 0xf6 →
      (new d clock).1 = Except.error Error.identification) ∧
    (∀ s d f, (configure_system_clock s d f).1 ≠ Except.error Error.identification) ∧
    (∀ s d c, (set_clock_frequency s d c).1 ≠ Except.error Error.identification) ∧
    (∀ s d, (self_test s d).1 ≠ Except.error Error.identification) ∧
    (∀ s d ch, (enable_channel s d ch).1 ≠ Except.error Error.identification) ∧
    (∀ s d ch, (disable_channel s d ch).1 ≠ Except.error Error.identification) ∧
    (∀ s d ch reg data,
      (modify_channel s d ch reg data).1 ≠ Except.error Error.identification) ∧
    (∀ s d ch q, (set_phase s d ch q).1 ≠ Except.error Error.identification) ∧
    (∀ s d ch q, (set_amplitude s d ch q).1 ≠ Except.error Error.identification) ∧
    (∀ s d ch q, (set_frequency s d ch q).1 ≠ Except.error Error.identification) := by
  refine ⟨?_, ?_, ?_, ?_, ?_, ?_, ?_, ?_, ?_, ?_⟩
  · intro d clock h
    rw [new_eq]
    simp [h]
  · intro s d f
    simp only [configure_system_clock]
    split
    · simp
    · split <;> simp
  · intro s d c
    simp [set_clock_frequency]
  · intro s d
    simp only [self_test]
    split
    · simp
    · split <;> simp
  · intro s d ch
    simp [enable_channel]
  · intro s d ch
    simp [disable_channel]
  · intro s d ch reg data
    rw [modify_channel_eq]
    simp
  · intro s d ch q
    simp only [set_phase]
    split
    · simp
    · rw [modify_channel_eq]
      simp
  · intro s d ch q
    simp only [set_amplitude]
    split
    · simp
    · rw [modify_channel_eq]
      simp
  · intro s d ch q
    simp only [set_frequency]
    split
    · simp
    · rw [modify_channel_eq]
      simp

theorem identification_only_from_new_witness :
    (new (Dev.mk [[0]] []) 25000000).1 = Except.error Error.identification :=
  identification_only_from_new.1 (Dev.mk [[0]] []) 25000000 (by decide)

theorem ratCast_le (q : ℚ) (cap : ℕ) : ratCast q cap ≤ cap := by
  unfold ratCast
  split
  · exact Nat.zero_le _
  · exact min_le_right _ _

theorem configure_eval_250 :
    configure_system_clock ⟨25000000, 1⟩ ⟨[[0, 0, 0]], []⟩ 250000000 =
      (Except.ok 250000000, ⟨25000000, 10⟩,
       ⟨[], [Act.readAct 1 [0, 0, 0], Act.writeAct 1 [40, 0, 0]]⟩) := by
  have h10 : ratCast ((250000000 : ℚ) / 25000000) 4294967295 = 10 := by
    apply ratCast_eq_of <;> norm_num
  have h10' : ratCast ((250000000 : ℚ) / 25000000) 255 = 10 := by
    apply ratCast_eq_of <;> norm_num
  have hb : decide ((250000000 : ℚ) > 255000000) = false := by
    rw [decide_eq_false_iff_not]
    norm_num
  have hgt : ¬((250000000 : ℚ) > 500000000) := by norm_num
  simp [configure_system_clock, devRead, devWrite, padTo, h10, h10', hb, hgt,
    Register.addr, system_clock_frequency, setBit, setBits, getBits]
  norm_num

theorem configure_eval_75 :
    configure_system_clock ⟨25000000, 1⟩ ⟨[[0, 0, 0]], []⟩ 75000000 =
      (Except.ok 25000000, ⟨25000000, 1⟩,
       ⟨[], [Act.readAct 1 [0, 0, 0], Act.writeAct 1 [4, 0, 0]]⟩) := by
  have h3 : ratCast ((75000000 : ℚ) / 25000000) 4294967295 = 3 := by
    apply ratCast_eq_of <;> norm_num
  have hb : decide ((75000000 : ℚ) > 255000000) = false := by
    rw [decide_eq_false_iff_not]
    norm_num
  have hgt : ¬((75000000 : ℚ) > 500000000) := by norm_num
  simp [configure_system_clock, devRead, devWrite, padTo, h3, hb, hgt,
    Register.addr, system_clock_frequency, setBit, setBits, getBits]

/-- C4 (counterexample): with reference clock 25 MHz and target 75 MHz the
call succeeds, the target is not inside the open interval
`(0, 3 * reference)`, so the claim predicts prescaler
`min(floor(target/reference), 20) = 3`; the code stores multiplier 1 and
returns 25 MHz. -/
theorem configure_prescaler_counterexample :
    (configure_system_clock ⟨25000000, 1⟩ ⟨[[0, 0, 0]], []⟩ 75000000).1 =
      Except.ok 25000000 ∧
    (configure_system_clock ⟨25000000, 1⟩ ⟨[[0, 0, 0]], []⟩
      75000000).2.1.system_clock_multiplier = 1 ∧
    ¬((75000000 : ℚ) < 3 * (25000000 : ℚ)) ∧
    min (⌊(75000000 : ℚ) / (25000000 : ℚ)⌋).toNat 20 = 3 := by
  refine ⟨by rw [configure_eval_75], by rw [configure_eval_75], by norm_num, ?_⟩
  have h : ⌊(75000000 : ℚ) / (25000000 : ℚ)⌋ = 3 := by norm_num
  rw [h]
  rfl

/-- C4 (amended): on every successful `configure_system_clock(target)` with a
positive reference clock, writing `q` for the truncated ratio
`floor(target/reference)`: the call implies `1 ≤ q`; the stored prescaler is
1 when `q ≤ 3` and `min q 20` otherwise; the value returned is
`prescaler * reference` (the achieved clock); and the byte written back to
FR1 carries the VCO-range flag in bit 7 exactly when the target exceeds
255 MHz and the prescaler in bits 2–6. -/
theorem configure_system_clock_ok (s : Ad9959) (d : Dev) (target : ℚ)
    (href : 0 < s.reference_clock_frequency) (r : ℚ) (s' : Ad9959) (d' : Dev)
    (h : configure_system_clock s d target = (Except.ok r, s', d')) :
    1 ≤ (⌊target / (s.reference_clock_frequency : ℚ)⌋).toNat ∧
    s'.reference_clock_frequency = s.reference_clock_frequency ∧
    s'.system_clock_multiplier =
      (if (⌊target / (s.reference_clock_frequency : ℚ)⌋).toNat ≤ 3 then 1
       else min (⌊target / (s.reference_clock_frequency : ℚ)⌋).toNat 20) ∧
    r = (s'.system_clock_multiplier : ℚ) * (s.reference_clock_frequency : ℚ) ∧
    ∃ resp, d'.log = d.log ++
      [Act.readAct 1 resp, Act.writeAct 1
        (setBit (setBits (resp.headD 0) 2 5 s'.system_clock_multiplier) 7
          (decide (target > 255000000)) :: resp.tail)] ∧
      Nat.testBit (setBit (setBits (resp.headD 0) 2 5 s'.system_clock_multiplier) 7
        (decide (target > 255000000))) 7 = decide (target > 255000000) ∧
      getBits (setBit (setBits (resp.headD 0) 2 5 s'.system_clock_multiplier) 7
        (decide (target > 255000000))) 2 5 = s'.system_clock_multiplier := by
  by_cases h5 : target > 500000000
  · simp [configure_system_clock, h5] at h
  by_cases hr0 : ratCast (target / (s.reference_clock_frequency : ℚ)) 4294967295 = 0
  · simp [configure_system_clock, h5, hr0] at h
  have hqnn : ¬ target / (s.reference_clock_frequency : ℚ) < 0 := by
    intro hneg
    exact hr0 (by simp [ratCast, hneg])
  have htarget : (0 : ℚ) ≤ target := by
    have h1 : (0 : ℚ) ≤ target / (s.reference_clock_frequency : ℚ) := not_lt.mp hqnn
    have h2 : target / (s.reference_clock_frequency : ℚ)
        * (s.reference_clock_frequency : ℚ) = target :=
      div_mul_cancel₀ _ (by positivity)
    nlinarith [h1, h2, (by positivity : (0 : ℚ) ≤ (s.reference_clock_frequency : ℚ))]
  have hrefQ : (1 : ℚ) ≤ (s.reference_clock_frequency : ℚ) := by exact_mod_cast href
  have hqle : target / (s.reference_clock_frequency : ℚ) ≤ target :=
    div_le_self htarget hrefQ
  have hfl5 : ⌊target / (s.reference_clock_frequency : ℚ)⌋ ≤ 500000000 := by
    have h1 : ((⌊target / (s.reference_clock_frequency : ℚ)⌋ : ℚ)) ≤ (500000000 : ℚ) :=
      le_trans (Int.floor_le _) (le_trans hqle (not_lt.mp h5))
    exact_mod_cast h1
  have hfln : 0 ≤ ⌊target / (s.reference_clock_frequency : ℚ)⌋ :=
    Int.floor_nonneg.mpr (not_lt.mp hqnn)
  have hratio : ratCast (target / (s.reference_clock_frequency : ℚ)) 4294967295 =
      (⌊target / (s.reference_clock_frequency : ℚ)⌋).toNat := by
    rw [ratCast_of_nonneg _ _ hqnn]
    omega
  have hratio255 : ratCast (target / (s.reference_clock_frequency : ℚ)) 255 =
      min (⌊target / (s.reference_clock_frequency : ℚ)⌋).toNat 255 := by
    rw [ratCast_of_nonneg _ _ hqnn]
  have hn1 : 1 ≤ (⌊target / (s.reference_clock_frequency : ℚ)⌋).toNat := by
    rw [hratio] at hr0
    omega
  simp only [configure_system_clock, if_neg h5, if_neg hr0, devRead, devWrite,
    Prod.mk.injEq, Except.ok.injEq] at h
  obtain ⟨hX, hs', hd'⟩ := h
  rw [hratio, hratio255] at hX hs' hd'
  have hpres : (if (⌊target / (s.reference_clock_frequency : ℚ)⌋).toNat ≤ 3 then 1
      else
        if min (⌊target / (s.reference_clock_frequency : ℚ)⌋).toNat 255 > 20 then 20
        else min (⌊target / (s.reference_clock_frequency : ℚ)⌋).toNat 255) =
      (if (⌊target / (s.reference_clock_frequency : ℚ)⌋).toNat ≤ 3 then 1
       else min (⌊target / (s.reference_clock_frequency : ℚ)⌋).toNat 20) := by
    split_ifs <;> omega
  rw [hpres] at hX hs' hd'
  subst hs'
  subst hd'
  have hP32 : (if (⌊target / (s.reference_clock_frequency : ℚ)⌋).toNat ≤ 3 then 1
      else min (⌊target / (s.reference_clock_frequency : ℚ)⌋).toNat 20) < 32 := by
    split_ifs <;> omega
  refine ⟨hn1, rfl, rfl, by rw [← hX, system_clock_frequency], ?_⟩
  refine ⟨padTo 3 ((d.reads.headD []).map (fun b => b % 256)),
    by simp [Register.addr], ?_, ?_⟩
  · exact (fr1_bits ⟨_, padTo_three_headD_lt (d.reads.headD [])⟩ ⟨_, hP32⟩
      (decide (target > 255000000))).1
  · exact (fr1_bits ⟨_, padTo_three_headD_lt (d.reads.headD [])⟩ ⟨_, hP32⟩
      (decide (target > 255000000))).2

theorem configure_system_clock_ok_witness :
    1 ≤ (⌊(250000000 : ℚ) / ((Ad9959.mk 25000000 1).reference_clock_frequency : ℚ)⌋).toNat ∧
    (Ad9959.mk 25000000 10).reference_clock_frequency =
      (Ad9959.mk 25000000 1).reference_clock_frequency ∧
    (Ad9959.mk 25000000 10).system_clock_multiplier =
      (if (⌊(250000000 : ℚ) /
          ((Ad9959.mk 25000000 1).reference_clock_frequency : ℚ)⌋).toNat ≤ 3 then 1
       else min (⌊(250000000 : ℚ) /
          ((Ad9959.mk 25000000 1).reference_clock_frequency : ℚ)⌋).toNat 20) ∧
    (250000000 : ℚ) = ((Ad9959.mk 25000000 10).system_clock_multiplier : ℚ) *
      ((Ad9959.mk 25000000 1).reference_clock_frequency : ℚ) ∧
    ∃ resp, (Dev.mk [] [Act.readAct 1 [0, 0, 0], Act.writeAct 1 [40, 0, 0]]).log =
      (Dev.mk [[0, 0, 0]] []).log ++
      [Act.readAct 1 resp, Act.writeAct 1
        (setBit (setBits (resp.headD 0) 2 5
            (Ad9959.mk 25000000 10).system_clock_multiplier) 7
          (decide ((250000000 : ℚ) > 255000000)) :: resp.tail)] ∧
      Nat.testBit (setBit (setBits (resp.headD 0) 2 5
          (Ad9959.mk 25000000 10).system_clock_multiplier) 7
        (decide ((250000000 : ℚ) > 255000000))) 7 =
          decide ((250000000 : ℚ) > 255000000) ∧
      getBits (setBit (setBits (resp.headD 0) 2 5
          (Ad9959.mk 25000000 10).system_clock_multiplier) 7
        (decide ((250000000 : ℚ) > 255000000))) 2 5 =
          (Ad9959.mk 25000000 10).system_clock_multiplier :=
  configure_system_clock_ok (Ad9959.mk 25000000 1) (Dev.mk [[0, 0, 0]] [])
    250000000 (by decide) 250000000 (Ad9959.mk 25000000 10)
    (Dev.mk [] [Act.readAct 1 [0, 0, 0], Act.writeAct 1 [40, 0, 0]])
    configure_eval_250

/-- C5: with a positive reference clock and a nonnegative target,
`configure_system_clock(target)` returns a Frequency error exactly when the
target exceeds 500 MHz or the truncated ratio `floor(target/reference)` is
zero, and on those error paths it performs no transport action and leaves the
stored state (in particular `system_clock_multiplier`) unchanged. -/
theorem configure_system_clock_error_iff (s : Ad9959) (d : Dev) (target : ℚ)
    (href : 0 < s.reference_clock_frequency) (htarget : 0 ≤ target) :
    ((configure_system_clock s d target).1 = Except.error Error.frequency ↔
      (target > 500000000 ∨ ⌊target / (s.reference_clock_frequency : ℚ)⌋ = 0)) ∧
    ((configure_system_clock s d target).1 = Except.error Error.frequency →
      (configure_system_clock s d target).2.1 = s ∧
      (configure_system_clock s d target).2.2 = d) := by
  have hq0 : (0 : ℚ) ≤ target / (s.reference_clock_frequency : ℚ) :=
    div_nonneg htarget (by positivity)
  by_cases h5 : target > 500000000
  · simp [configure_system_clock, h5]
  · by_cases hr : ratCast (target / (s.reference_clock_frequency : ℚ)) 4294967295 = 0
    · have hlt : target / (s.reference_clock_frequency : ℚ) < 1 :=
        (ratCast_eq_zero_iff _ _ (by norm_num)).mp hr
      have hfl : ⌊target / (s.reference_clock_frequency : ℚ)⌋ = 0 := by
        have h1 : ⌊target / (s.reference_clock_frequency : ℚ)⌋ < 1 :=
          Int.floor_lt.mpr (by exact_mod_cast hlt)
        have h2 : 0 ≤ ⌊target / (s.reference_clock_frequency : ℚ)⌋ :=
          Int.floor_nonneg.mpr hq0
        omega
      simp [configure_system_clock, h5, hr, hfl]
    · have hfl : ⌊target / (s.reference_clock_frequency : ℚ)⌋ ≠ 0 := by
        intro h0
        apply hr
        rw [ratCast_eq_zero_iff _ _ (by norm_num)]
        have := Int.lt_floor_add_one (target / (s.reference_clock_frequency : ℚ))
        rw [h0] at this
        simpa using this
      simp [configure_system_clock, h5, hr, hfl, devRead, devWrite]

theorem configure_system_clock_error_iff_witness :
    ((configure_system_clock (Ad9959.mk 25000000 1) (Dev.mk [] []) 600000000).1 =
        Except.error Error.frequency ↔
      ((600000000 : ℚ) > 500000000 ∨
        ⌊(600000000 : ℚ) / ((Ad9959.mk 25000000 1).reference_clock_frequency : ℚ)⌋ = 0)) ∧
    ((configure_system_clock (Ad9959.mk 25000000 1) (Dev.mk [] []) 600000000).1 =
        Except.error Error.frequency →
      (configure_system_clock (Ad9959.mk 25000000 1) (Dev.mk [] []) 600000000).2.1 =
        Ad9959.mk 25000000 1 ∧
      (configure_system_clock (Ad9959.mk 25000000 1) (Dev.mk [] []) 600000000).2.2 =
        Dev.mk [] []) :=
  configure_system_clock_error_iff (Ad9959.mk 25000000 1) (Dev.mk [] [])
    600000000 (by decide) (by norm_num)

set_option maxRecDepth 8192 in
theorem bit4 : ∀ h : Fin 256, ∀ fl : Bool, Nat.testBit (setBit h.val 4 fl) 4 = fl := by
  decide

theorem ratCast_natCast (w cap : ℕ) (h : w ≤ cap) : ratCast ((w : ℕ) : ℚ) cap = w :=
  ratCast_eq_of _ _ w (le_refl _) (by exact_mod_cast Nat.lt_succ_self w) h

/-- C6: for every frequency in `[0, system_clock_frequency]` the value
`set_frequency` returns is `tuning_word / 2^32 * system_clock_frequency`
where `tuning_word` is the 32-bit word written (big-endian) to CFTW0
(address 0x04); frequencies outside the interval yield a Bounds error with
the device untouched. -/
theorem set_frequency_spec (s : Ad9959) (d : Dev) (ch : Channel) (hz : ℚ) :
    (0 ≤ hz → hz ≤ system_clock_frequency s →
      (set_frequency s d ch hz).1 = Except.ok
        (((ratCast (hz / system_clock_frequency s * 4294967296) 4294967295 : ℕ) : ℚ)
          / 4294967296 * system_clock_frequency s) ∧
      ratCast (hz / system_clock_frequency s * 4294967296) 4294967295 < 4294967296 ∧
      ∃ pre post, (set_frequency s d ch hz).2.2.log = d.log ++ pre ++
        (Act.writeAct 4 (u32be (ratCast (hz / system_clock_frequency s * 4294967296)
          4294967295)) :: post)) ∧
    ((hz < 0 ∨ hz > system_clock_frequency s) →
      (set_frequency s d ch hz).1 = Except.error Error.bounds ∧
      (set_frequency s d ch hz).2.1 = s ∧ (set_frequency s d ch hz).2.2 = d) := by
  constructor
  · intro h0 h1
    have hcond : ¬(hz < 0 ∨ hz > system_clock_frequency s) := by
      push_neg
      exact ⟨h0, h1⟩
    simp only [set_frequency, if_neg hcond, modify_channel_eq]
    refine ⟨trivial, lt_of_le_of_lt (ratCast_le _ _) (by norm_num), ?_⟩
    exact ⟨[Act.readAct 0 [firstByte d],
      Act.writeAct 0 [setBit (setBits (firstByte d) 4 4 0) (4 + ch.num) true]],
      [Act.pinHigh, Act.delayAct (ratCast (5000 / system_clock_frequency s) 255),
       Act.pinLow, Act.writeAct 0 [firstByte d]], by simp [Register.addr]⟩
  · intro hcond
    simp [set_frequency, hcond]

theorem set_frequency_spec_witness :
    (set_frequency (Ad9959.mk 100 1) (Dev.mk [[0]] []) Channel.one 25).1 = Except.ok
      (((ratCast ((25 : ℚ) / system_clock_frequency (Ad9959.mk 100 1) * 4294967296)
          4294967295 : ℕ) : ℚ) / 4294967296 * system_clock_frequency (Ad9959.mk 100 1)) ∧
    ratCast ((25 : ℚ) / system_clock_frequency (Ad9959.mk 100 1) * 4294967296)
      4294967295 < 4294967296 ∧
    ∃ pre post,
      (set_frequency (Ad9959.mk 100 1) (Dev.mk [[0]] []) Channel.one 25).2.2.log =
        (Dev.mk [[0]] []).log ++ pre ++
        (Act.writeAct 4 (u32be (ratCast ((25 : ℚ) /
          system_clock_frequency (Ad9959.mk 100 1) * 4294967296) 4294967295)) :: post) :=
  (set_frequency_spec (Ad9959.mk 100 1) (Dev.mk [[0]] []) Channel.one 25).1
    (by norm_num) (by norm_num [system_clock_frequency])

/-- C7: for every amplitude in `[0, 1]` the ACR payload written by
`set_amplitude` has the amplitude-multiplier enable flag (bit 4 of the middle
payload byte) set exactly when the encoded word is strictly below full scale
1023; amplitudes outside the interval yield a Bounds error with the device
untouched. -/
theorem set_amplitude_spec (s : Ad9959) (d : Dev) (ch : Channel) (amp : ℚ) :
    (0 ≤ amp → amp ≤ 1 →
      (set_amplitude s d ch amp).1 = Except.ok
        (((ratCast (amp / 1 * 1024) 65535 : ℕ) : ℚ) / 1024) ∧
      (Nat.testBit (setBit (ratCast (amp / 1 * 1024) 65535 / 256 % 256) 4
          (decide (ratCast (amp / 1 * 1024) 65535 < 1023))) 4 = true ↔
        ratCast (amp / 1 * 1024) 65535 < 1023) ∧
      ∃ pre post, (set_amplitude s d ch amp).2.2.log = d.log ++ pre ++
        (Act.writeAct 6 [0, setBit (ratCast (amp / 1 * 1024) 65535 / 256 % 256) 4
            (decide (ratCast (amp / 1 * 1024) 65535 < 1023)),
          ratCast (amp / 1 * 1024) 65535 % 256] :: post)) ∧
    ((amp < 0 ∨ amp > 1) →
      (set_amplitude s d ch amp).1 = Except.error Error.bounds ∧
      (set_amplitude s d ch amp).2.1 = s ∧ (set_amplitude s d ch amp).2.2 = d) := by
  constructor
  · intro h0 h1
    have hcond : ¬(amp < 0 ∨ amp > 1) := by
      push_neg
      exact ⟨h0, h1⟩
    simp only [set_amplitude, if_neg hcond, modify_channel_eq]
    refine ⟨trivial, ?_, ?_⟩
    · rw [bit4 ⟨_, Nat.mod_lt _ (by norm_num)⟩]
      simp
    · exact ⟨[Act.readAct 0 [firstByte d],
        Act.writeAct 0 [setBit (setBits (firstByte d) 4 4 0) (4 + ch.num) true]],
        [Act.pinHigh, Act.delayAct (ratCast (5000 / system_clock_frequency s) 255),
         Act.pinLow, Act.writeAct 0 [firstByte d]], by simp [Register.addr]⟩
  · intro hcond
    simp [set_amplitude, hcond]

theorem set_amplitude_spec_witness :
    (set_amplitude (Ad9959.mk 100 1) (Dev.mk [[0]] []) Channel.one (1/2)).1 = Except.ok
      (((ratCast (((1 : ℚ)/2) / 1 * 1024) 65535 : ℕ) : ℚ) / 1024) ∧
    (Nat.testBit (setBit (ratCast (((1 : ℚ)/2) / 1 * 1024) 65535 / 256 % 256) 4
        (decide (ratCast (((1 : ℚ)/2) / 1 * 1024) 65535 < 1023))) 4 = true ↔
      ratCast (((1 : ℚ)/2) / 1 * 1024) 65535 < 1023) ∧
    ∃ pre post,
      (set_amplitude (Ad9959.mk 100 1) (Dev.mk [[0]] []) Channel.one (1/2)).2.2.log =
        (Dev.mk [[0]] []).log ++ pre ++
        (Act.writeAct 6 [0, setBit (ratCast (((1 : ℚ)/2) / 1 * 1024) 65535 / 256 % 256) 4
            (decide (ratCast (((1 : ℚ)/2) / 1 * 1024) 65535 < 1023)),
          ratCast (((1 : ℚ)/2) / 1 * 1024) 65535 % 256] :: post) :=
  (set_amplitude_spec (Ad9959.mk 100 1) (Dev.mk [[0]] []) Channel.one (1/2)).1
    (by norm_num) (by norm_num)

/-- C8: for every phase in `[0, 360]` degrees `set_phase` returns the decode
`word / 2^14 * 360` of the encoded word written (big-endian) to CPOW0
(address 0x05), the returned value lies within one quantization step
`360 / 2^14` of the input, re-encoding the returned value gives the same
word (so a second call with the returned value writes the same word and
returns the same value); phases outside the interval yield a Bounds error
with the device untouched. -/
theorem set_phase_spec (s : Ad9959) (d : Dev) (ch : Channel) (deg : ℚ) :
    (0 ≤ deg → deg ≤ 360 →
      (set_phase s d ch deg).1 = Except.ok
        (((ratCast (deg / 360 * 16384) 65535 : ℕ) : ℚ) / 16384 * 360) ∧
      |(((ratCast (deg / 360 * 16384) 65535 : ℕ) : ℚ) / 16384 * 360) - deg| ≤
        360 / 16384 ∧
      (∃ pre post, (set_phase s d ch deg).2.2.log = d.log ++ pre ++
        (Act.writeAct 5 (u16be (ratCast (deg / 360 * 16384) 65535)) :: post)) ∧
      ratCast ((((ratCast (deg / 360 * 16384) 65535 : ℕ) : ℚ) / 16384 * 360)
        / 360 * 16384) 65535 = ratCast (deg / 360 * 16384) 65535 ∧
      (∀ d2 : Dev, (set_phase s d2 ch
          (((ratCast (deg / 360 * 16384) 65535 : ℕ) : ℚ) / 16384 * 360)).1 =
        Except.ok (((ratCast (deg / 360 * 16384) 65535 : ℕ) : ℚ) / 16384 * 360))) ∧
    ((deg > 360 ∨ deg < 0) →
      (set_phase s d ch deg).1 = Except.error Error.bounds ∧
      (set_phase s d ch deg).2.1 = s ∧ (set_phase s d ch deg).2.2 = d) := by
  constructor
  · intro h0 h1
    have hcond : ¬(deg > 360 ∨ deg < 0) := by
      push_neg
      exact ⟨h1, h0⟩
    have hq0 : (0 : ℚ) ≤ deg / 360 * 16384 := by positivity
    have hq16 : deg / 360 * 16384 ≤ 16384 := by
      have hd1 : deg / 360 ≤ 1 := by
        rw [div_le_one (by norm_num)]
        exact h1
      nlinarith
    have hfl0 : 0 ≤ ⌊deg / 360 * 16384⌋ := Int.floor_nonneg.mpr hq0
    have hfl_le : ⌊deg / 360 * 16384⌋ ≤ 16384 := by
      have h2 : ((⌊deg / 360 * 16384⌋ : ℤ) : ℚ) ≤ 16384 :=
        le_trans (Int.floor_le _) hq16
      exact_mod_cast h2
    have hw : ratCast (deg / 360 * 16384) 65535 = (⌊deg / 360 * 16384⌋).toNat := by
      rw [ratCast_of_nonneg _ _ (not_lt.mpr hq0)]
      omega
    have hw16 : ratCast (deg / 360 * 16384) 65535 ≤ 16384 := by
      rw [hw]
      omega
    have hwQ : ((ratCast (deg / 360 * 16384) 65535 : ℕ) : ℚ) =
        ((⌊deg / 360 * 16384⌋ : ℤ) : ℚ) := by
      rw [hw]
      exact_mod_cast congrArg (fun z : ℤ => (z : ℚ)) (Int.toNat_of_nonneg hfl0)
    have hfloor_le : ((⌊deg / 360 * 16384⌋ : ℤ) : ℚ) ≤ deg / 360 * 16384 :=
      Int.floor_le _
    have hfloor_gt : deg / 360 * 16384 - 1 < ((⌊deg / 360 * 16384⌋ : ℤ) : ℚ) :=
      Int.sub_one_lt_floor _
    have hre : ((((ratCast (deg / 360 * 16384) 65535 : ℕ) : ℚ) / 16384 * 360)
        / 360 * 16384) = ((ratCast (deg / 360 * 16384) 65535 : ℕ) : ℚ) := by
      ring
    have hcast : ratCast (((ratCast (deg / 360 * 16384) 65535 : ℕ) : ℚ)) 65535 =
        ratCast (deg / 360 * 16384) 65535 :=
      ratCast_natCast _ _ (le_trans hw16 (by norm_num))
    refine ⟨?_, ?_, ?_, ?_, ?_⟩
    · simp only [set_phase, if_neg hcond, modify_channel_eq]
    · rw [abs_le]
      constructor <;> nlinarith [hwQ, hfloor_le, hfloor_gt]
    · simp only [set_phase, if_neg hcond, modify_channel_eq]
      exact ⟨[Act.readAct 0 [firstByte d],
        Act.writeAct 0 [setBit (setBits (firstByte d) 4 4 0) (4 + ch.num) true]],
        [Act.pinHigh, Act.delayAct (ratCast (5000 / system_clock_frequency s) 255),
         Act.pinLow, Act.writeAct 0 [firstByte d]], by simp [Register.addr]⟩
    · rw [hre]
      exact hcast
    · intro d2
      have hret0 : (0 : ℚ) ≤ ((ratCast (deg / 360 * 16384) 65535 : ℕ) : ℚ)
          / 16384 * 360 := by positivity
      have hret360 : ((ratCast (deg / 360 * 16384) 65535 : ℕ) : ℚ)
          / 16384 * 360 ≤ 360 := by
        have hc : ((ratCast (deg / 360 * 16384) 65535 : ℕ) : ℚ) ≤ 16384 := by
          exact_mod_cast hw16
        nlinarith
      have hcond2 : ¬(((ratCast (deg / 360 * 16384) 65535 : ℕ) : ℚ)
          / 16384 * 360 > 360 ∨
          ((ratCast (deg / 360 * 16384) 65535 : ℕ) : ℚ) / 16384 * 360 < 0) := by
        push_neg
        exact ⟨hret360, hret0⟩
      simp only [set_phase, if_neg hcond2, modify_channel_eq, hre, hcast]
  · intro hcond
    simp [set_phase, hcond]

theorem set_phase_spec_witness :
    (set_phase (Ad9959.mk 100 1) (Dev.mk [[0]] []) Channel.one 90).1 = Except.ok
      (((ratCast ((90 : ℚ) / 360 * 16384) 65535 : ℕ) : ℚ) / 16384 * 360) ∧
    |(((ratCast ((90 : ℚ) / 360 * 16384) 65535 : ℕ) : ℚ) / 16384 * 360) - 90| ≤
      360 / 16384 ∧
    (∃ pre post,
      (set_phase (Ad9959.mk 100 1) (Dev.mk [[0]] []) Channel.one 90).2.2.log =
        (Dev.mk [[0]] []).log ++ pre ++
        (Act.writeAct 5 (u16be (ratCast ((90 : ℚ) / 360 * 16384) 65535)) :: post)) ∧
    ratCast ((((ratCast ((90 : ℚ) / 360 * 16384) 65535 : ℕ) : ℚ) / 16384 * 360)
      / 360 * 16384) 65535 = ratCast ((90 : ℚ) / 360 * 16384) 65535 ∧
    (∀ d2 : Dev, (set_phase (Ad9959.mk 100 1) d2 Channel.one
        (((ratCast ((90 : ℚ) / 360 * 16384) 65535 : ℕ) : ℚ) / 16384 * 360)).1 =
      Except.ok (((ratCast ((90 : ℚ) / 360 * 16384) 65535 : ℕ) : ℚ) / 16384 * 360)) :=
  (set_phase_spec (Ad9959.mk 100 1) (Dev.mk [[0]] []) Channel.one 90).1
    (by norm_num) (by norm_num)

end AD9959
